import Mathlib

/-!
Verification development for the media-shrinker transcoder core.

The numeric estimation engine (bitrate calculator, feasibility validator,
quality estimator and its inverse, resolution planner) is embedded over the
exact rationals: every arithmetic step of the source is mirrored, including
the explicit floor, ceil and round operations the source performs, the guard
clauses that throw on non-positive inputs (modelled as Option), and the
clamping of the safety buffer.  The encode-orchestrator decision logic
(stall poll, terminal classification, output validation, dual-engine
fallback) is embedded as pure decision functions over the values those code
paths branch on.
-/

/-- Output resolution cap, from src/lib/resolution.ts. -/
inductive OutputResolution
  | original
  | p1080
  | p720
  | p480
deriving DecidableEq

/-- The RESOLUTION_PRESETS table: box width and height for each named cap. -/
def presetBox : OutputResolution → Option (ℕ × ℕ)
  | .original => none
  | .p1080 => some (1920, 1080)
  | .p720 => some (1280, 720)
  | .p480 => some (854, 480)

/-- Planned output dimensions. -/
structure Dims where
  width : ℤ
  height : ℤ
deriving DecidableEq

/-- The scaling branch of getTargetDimensions (src/lib/resolution.ts): for
the landscape orientation clamp the width to the box and input, derive the
height from the aspect ratio with JS Math.round (the Mathlib round), and
when that overflows the box height redo the fit from the height; the
portrait orientation is symmetric. -/
def scaleToFit (pw ph iW iH : ℕ) : Dims :=
  if iH ≤ iW then
    if (ph : ℤ) < round (((min pw iW : ℕ) : ℚ) / ((iW : ℚ) / (iH : ℚ))) then
      ⟨round (((min ph iH : ℕ) : ℚ) * ((iW : ℚ) / (iH : ℚ))),
        ((min ph iH : ℕ) : ℤ)⟩
    else
      ⟨((min pw iW : ℕ) : ℤ),
        round (((min pw iW : ℕ) : ℚ) / ((iW : ℚ) / (iH : ℚ)))⟩
  else
    if (pw : ℤ) < round (((min ph iH : ℕ) : ℚ) * ((iW : ℚ) / (iH : ℚ))) then
      ⟨((min pw iW : ℕ) : ℤ),
        round (((min pw iW : ℕ) : ℚ) / ((iW : ℚ) / (iH : ℚ)))⟩
    else
      ⟨round (((min ph iH : ℕ) : ℚ) * ((iW : ℚ) / (iH : ℚ))),
        ((min ph iH : ℕ) : ℤ)⟩

/-- getTargetDimensions from src/lib/resolution.ts.  Returns none for the
original cap or when the input already fits the preset box; otherwise scales
down to fit the box, preserving aspect ratio, with a second fitting pass when
the first overflows the other axis. -/
def getTargetDimensions (res : OutputResolution) (iW iH : ℕ) : Option Dims :=
  match presetBox res with
  | none => none
  | some (pw, ph) =>
    if iW ≤ pw ∧ iH ≤ ph then none
    else some (scaleToFit pw ph iW iH)

/-- Safety buffer in MB: 2 percent of the target, clamped to
[0.244140625 MB, 2 MB] (useTranscoder.ts, calculateBitrate). -/
def bufferMB (targetSizeMB : ℚ) : ℚ :=
  min 2 (max (250 / 1024) (targetSizeMB * (2 / 100)))

/-- Adjusted target size after subtracting the buffer, floored at 0.1 MB. -/
def adjustedTargetSizeMB (targetSizeMB : ℚ) : ℚ :=
  max (1 / 10) (targetSizeMB - bufferMB targetSizeMB)

/-- calculateBitrate from useTranscoder.ts.  Works in kbps as the source
does; throws (none) on non-positive duration or target size; otherwise
returns the floor of
(adjustedTargetSizeMB times 8192 / duration - audioKbps) times 0.95. -/
def calculateBitrate (targetSizeMB durationSeconds audioBitrateKbps : ℚ) :
    Option ℤ :=
  if durationSeconds ≤ 0 then none
  else if targetSizeMB ≤ 0 then none
  else
    some ⌊(adjustedTargetSizeMB targetSizeMB * 8192 / durationSeconds -
            audioBitrateKbps) * (95 / 100)⌋

/-- Modelled from the spec: the five-step formula of section 4.1, stated in
bits per second exactly as the spec words it, with no final floor.  Used
only to compare the source function against the spec formula. -/
def specVideoBitrateBps (targetSizeMB durationSeconds audioBitrateBps : ℚ) :
    ℚ :=
  ((adjustedTargetSizeMB targetSizeMB * 8192 * 1000) / durationSeconds -
      audioBitrateBps) * (95 / 100)

/-- calculateMinimumSize from useTranscoder.ts: size admitting the
100 kbps video + 128 kbps audio floor with the 5 percent overhead formula run
in reverse, rounded up to the nearest 0.1 MB.  Note it does not account for
the safety buffer that calculateBitrate subtracts. -/
def calculateMinimumSize (durationSeconds : ℚ) : ℚ :=
  (⌈((100 : ℚ) + 128) / (95 / 100) * durationSeconds / 8192 * 10⌉ : ℚ) / 10

/-- JS truthiness of an optional numeric dimension: present and nonzero. -/
def jsTruthy (o : Option ℕ) : Bool :=
  match o with
  | some n => n ≠ 0
  | none => false

/-- JS expression (o or-else dflt): the value when truthy, else the default. -/
def jsOr (o : Option ℕ) (dflt : ℕ) : ℕ :=
  match o with
  | some n => if n = 0 then dflt else n
  | none => dflt

/-- calculateTargetSizeForQuality from useTranscoder.ts: invert the quality
score to a bitrate-per-pixel value, then to a target size, assuming 128 kbps
audio, rounded up to the nearest 0.1 MB with a 0.1 MB floor.  Inputs larger
than 1080p are assumed downscaled to 720p or 1080p per the fixed rule. -/
def calculateTargetSizeForQuality (qualityScore durationSeconds : ℚ)
    (inputWidth inputHeight : Option ℕ) : ℚ :=
  let defaultW : ℚ := (jsOr inputWidth 1920 : ℕ)
  let defaultH : ℚ := (jsOr inputHeight 1080 : ℕ)
  let dims : ℚ × ℚ :=
    if jsTruthy inputWidth ∧ jsTruthy inputHeight then
      let iW : ℚ := (jsOr inputWidth 1920 : ℕ)
      let iH : ℚ := (jsOr inputHeight 1080 : ℕ)
      if 1920 < iW ∨ 1080 < iH then
        let aspect := iW / iH
        if 2560 < iW ∨ 1440 < iH then
          (((round (720 * aspect) : ℤ) : ℚ), 720)
        else
          (((round (1080 * aspect) : ℤ) : ℚ), 1080)
      else (defaultW, defaultH)
    else (defaultW, defaultH)
  let pixels := dims.1 * dims.2
  let fps : ℚ := 30
  let bitratePerPixel : ℚ :=
    if 90 ≤ qualityScore then
      15 / 100 + ((qualityScore - 90) / 10) * (10 / 100)
    else if 70 ≤ qualityScore then
      10 / 100 + ((qualityScore - 70) / 20) * (5 / 100)
    else if 50 ≤ qualityScore then
      6 / 100 + ((qualityScore - 50) / 20) * (4 / 100)
    else if 30 ≤ qualityScore then
      3 / 100 + ((qualityScore - 30) / 20) * (3 / 100)
    else
      (qualityScore / 30) * (3 / 100)
  let videoBitrateKbps := bitratePerPixel * pixels * fps / 1000
  let audioBitrateKbps : ℚ := 128
  let totalBitrateKbps := (videoBitrateKbps + audioBitrateKbps) / (95 / 100)
  let targetSizeMB := totalBitrateKbps * durationSeconds / 8192
  max (1 / 10) ((⌈targetSizeMB * 10⌉ : ℚ) / 10)

/-- getRecommendedTargetSize from useTranscoder.ts: the 75 percent quality
checkpoint of the inverse resolver. -/
def getRecommendedTargetSize (durationSeconds : ℚ) : ℚ :=
  calculateTargetSizeForQuality 75 durationSeconds none none

/-- getQualityBasedRecommendations from useTranscoder.ts: inverse resolver
at checkpoints 60, 75, 90, 100, deduplicated and sorted ascending. -/
def getQualityBasedRecommendations (durationSeconds : ℚ)
    (inputWidth inputHeight : Option ℕ) : List ℚ :=
  let recs := [(60 : ℚ), 75, 90, 100].map fun s =>
    calculateTargetSizeForQuality s durationSeconds inputWidth inputHeight
  (recs.dedup.mergeSort (· ≤ ·))

/-- Result record of validateTargetSize. -/
structure SizeValidation where
  valid : Bool
  minSizeMB : ℚ
  recommendedSizeMB : ℚ
deriving DecidableEq

/-- validateTargetSize from useTranscoder.ts: valid iff the computed video
bitrate at the requested size is at least the 100 kbps floor; carries the
minimum and recommended sizes.  none models the throw on bad inputs. -/
def validateTargetSize (durationSeconds targetSizeMB : ℚ) :
    Option SizeValidation :=
  match calculateBitrate targetSizeMB durationSeconds 128 with
  | none => none
  | some b =>
      some { valid := decide (100 ≤ b)
             minSizeMB := calculateMinimumSize durationSeconds
             recommendedSizeMB := getRecommendedTargetSize durationSeconds }

/-- Audio bitrate resolution in kbps: removeAudio wins over optimizeAudio
(useTranscoder.ts, estimateQuality and transcode). -/
def resolveAudioBitrateKbps (removeAudio optimizeAudio : Bool) : ℚ :=
  if removeAudio then 0 else if optimizeAudio then 96 else 128

/-- Qualitative quality tier. -/
inductive QualityLevel
  | excellent
  | good
  | fair
  | poor
  | veryPoor
deriving DecidableEq

/-- Quality estimate record. -/
structure QualityEstimate where
  score : ℤ
  level : QualityLevel
  bitratePerPixel : ℚ
  estimatedQualityLoss : ℤ
deriving DecidableEq

/-- The five-band piecewise-linear score as a function of bitrate-per-pixel
(estimateQuality, useTranscoder.ts), before rounding and clamping. -/
def qualityScoreOfBpp (bpp : ℚ) : ℚ :=
  if 15 / 100 ≤ bpp then 90 + min 10 ((bpp - 15 / 100) * 100)
  else if 10 / 100 ≤ bpp then 70 + ((bpp - 10 / 100) / (5 / 100)) * 20
  else if 6 / 100 ≤ bpp then 50 + ((bpp - 6 / 100) / (4 / 100)) * 20
  else if 3 / 100 ≤ bpp then 30 + ((bpp - 3 / 100) / (3 / 100)) * 20
  else max 0 (bpp / (3 / 100) * 30)

/-- The qualitative tier of a bitrate-per-pixel value. -/
def qualityLevelOfBpp (bpp : ℚ) : QualityLevel :=
  if 15 / 100 ≤ bpp then .excellent
  else if 10 / 100 ≤ bpp then .good
  else if 6 / 100 ≤ bpp then .fair
  else if 3 / 100 ≤ bpp then .poor
  else .veryPoor

/-- The estimated quality-loss percentage of a bitrate-per-pixel value,
before rounding and clamping. -/
def qualityLossOfBpp (bpp : ℚ) : ℚ :=
  if 15 / 100 ≤ bpp then max 0 (5 - (bpp - 15 / 100) * 20)
  else if 10 / 100 ≤ bpp then 10 + ((15 / 100 - bpp) / (5 / 100)) * 10
  else if 6 / 100 ≤ bpp then 25 + ((10 / 100 - bpp) / (4 / 100)) * 15
  else if 3 / 100 ≤ bpp then 45 + ((6 / 100 - bpp) / (3 / 100)) * 20
  else 70 + ((3 / 100 - bpp) / (3 / 100)) * 25

/-- estimateQuality from useTranscoder.ts: resolve audio, compute the video
bitrate, resolve output dimensions through the resolution planner (default
1920 by 1080 when dimensions are unknown), form bitrate-per-pixel at an
assumed 30 fps, and map it through the five piecewise-linear bands; score
and loss are rounded then clamped to [0, 100]. -/
def estimateQuality (targetSizeMB durationSeconds : ℚ)
    (inputWidth inputHeight : Option ℕ) (removeAudio optimizeAudio : Bool)
    (outputResolution : OutputResolution) : Option QualityEstimate :=
  match calculateBitrate targetSizeMB durationSeconds
      (resolveAudioBitrateKbps removeAudio optimizeAudio) with
  | none => none
  | some videoBitrate =>
    let dims : ℤ × ℤ :=
      if jsTruthy inputWidth ∧ jsTruthy inputHeight then
        match getTargetDimensions outputResolution (jsOr inputWidth 1920)
            (jsOr inputHeight 1080) with
        | some d => (d.width, d.height)
        | none => ((jsOr inputWidth 1920 : ℕ), (jsOr inputHeight 1080 : ℕ))
      else (1920, 1080)
    let pixels : ℚ := (dims.1 : ℚ) * (dims.2 : ℚ)
    let fps : ℚ := 30
    let bpp : ℚ := ((videoBitrate : ℚ) * 1000) / (pixels * fps)
    some { score := max 0 (min 100 (round (qualityScoreOfBpp bpp)))
           level := qualityLevelOfBpp bpp
           bitratePerPixel := bpp
           estimatedQualityLoss :=
             max 0 (min 100 (round (qualityLossOfBpp bpp))) }

/-- Forward-after-inverse composition at a given score, duration and input
dimensions, with full audio and the original resolution cap, projected to
the rounded score. -/
def roundTripScoreAt (score durationSeconds : ℚ)
    (inputWidth inputHeight : Option ℕ) : Option ℤ :=
  (estimateQuality
      (calculateTargetSizeForQuality score durationSeconds inputWidth
        inputHeight)
      durationSeconds inputWidth inputHeight false false
      OutputResolution.original).map QualityEstimate.score

/-- Outcome of the feasibility gate run by the FFmpeg transcode path before
any engine work (useTranscoder.ts, transcode, the block validating the
calculated bitrate against the 100 kbps floor). -/
inductive FfmpegGate
  | invalidParameter
  | infeasible (minSizeMB recommendedSizeMB : ℚ)
  | proceed (bitrateKbps : ℤ)
deriving DecidableEq

/-- The software-path pre-engine check: compute the bitrate, raise the
infeasible error (carrying minimum and recommended sizes) when it is below
100 kbps, otherwise proceed with the bitrate. -/
def ffmpegFeasibilityGate (targetSizeMB durationSeconds audioBitrateKbps :
    ℚ) : FfmpegGate :=
  match calculateBitrate targetSizeMB durationSeconds audioBitrateKbps with
  | none => .invalidParameter
  | some b =>
    if b < 100 then
      .infeasible (calculateMinimumSize durationSeconds)
        (getRecommendedTargetSize durationSeconds)
    else .proceed b

/-- The raw (unclamped) hardware-path video bitrate in bits per second,
before the overshoot factor and floor clamp (useTranscoderPro,
calculateVideoBitrate). -/
def hwVideoBitrateRawBps (targetSizeMB durationSeconds audioBitrateBps : ℚ) :
    ℚ :=
  (adjustedTargetSizeMB targetSizeMB * 8192 * 1000 / durationSeconds -
      audioBitrateBps) * (95 / 100)

/-- calculateVideoBitrate from useTranscoderPro: applies the 0.55 hardware
overshoot factor and then clamps the result up to a 100000 bps floor with
Math.max before flooring.  It never raises an infeasibility error. -/
def calculateVideoBitrate (targetSizeMB durationSeconds audioBitrateBps : ℚ) :
    ℤ :=
  ⌊max 100000
      (hwVideoBitrateRawBps targetSizeMB durationSeconds audioBitrateBps *
        (55 / 100))⌋

/-- Classification of the produced output bytes after an FFmpeg encode
(useTranscoder.ts, transcode, output validation block). -/
inductive OutputValidation
  | emptyOutput
  | truncatedNearComplete
  | tooSmall
  | ok
deriving DecidableEq

/-- The output-size validation: empty output raises the generic empty error;
a non-empty output below the fixed 1 MB threshold raises the distinct
truncated error when progress reached 0.95, else the generic too-small
error. -/
def validateOutput (outputBytes : ℕ) (progress : ℚ) : OutputValidation :=
  if outputBytes = 0 then .emptyOutput
  else if (outputBytes : ℚ) / 1024 / 1024 < 1 then
    if 95 / 100 ≤ progress then .truncatedNearComplete else .tooSmall
  else .ok

/-- Stall threshold of the liveness poll: 3 minutes in milliseconds. -/
def STALL_THRESHOLD_MS : ℚ := 3 * 60 * 1000

/-- Terminal classification raised by a firing of the periodic liveness
poll. -/
inductive JobTerminal
  | failedStalled
deriving DecidableEq

/-- One firing of the 30-second liveness poll (useTranscoder.ts, the
interval body): when the time since the last progress update exceeds the
stall threshold and no completion marker has been seen and no stall was
already raised, the job is failed as stalled. -/
def livenessPoll (timeSinceLastProgressMs : ℚ)
    (encodingCompleted encodingTimedOut : Bool) : Option JobTerminal :=
  if STALL_THRESHOLD_MS < timeSinceLastProgressMs ∧
      encodingCompleted = false ∧ encodingTimedOut = false then
    some .failedStalled
  else none

/-- The heuristic deciding whether the encode likely finished: a completion
marker was seen, or progress reached 0.95, or at least 90 percent of the
estimated frames were processed. -/
def encodingLikelyCompleted (encodingCompleted : Bool) (progress : ℚ)
    (frameCount totalFramesEstimate : ℕ) : Bool :=
  encodingCompleted || decide ((95 / 100 : ℚ) ≤ progress) ||
    (decide (0 < frameCount) &&
      decide ((totalFramesEstimate : ℚ) * (9 / 10) ≤ (frameCount : ℚ)))

/-- Terminal outcome of the exec phase. -/
inductive ExecOutcome
  | failedFatal
  | completedWithWarning
  | completed
deriving DecidableEq

/-- Post-exec classification (useTranscoder.ts, transcode): an OOM or abort
signal is fatal only when the encode did not likely complete; with a likely
completion it is downgraded to a completion with a warning. -/
def classifyAfterExec (oomDetected abortedDetected likelyCompleted : Bool) :
    ExecOutcome :=
  if (oomDetected || abortedDetected) && !likelyCompleted then .failedFatal
  else if oomDetected || abortedDetected then .completedWithWarning
  else .completed

/-- Engine selected by the pro transcoder. -/
inductive ProEngine
  | webcodecs
  | wasm
deriving DecidableEq

/-- An encode request as the pro transcoder receives it. -/
structure EncodeRequest where
  fileId : ℕ
  targetSizeMB : ℚ
  removeAudio : Bool
  optimizeAudio : Bool
  outputResolution : OutputResolution
  inputWidth : Option ℕ
  inputHeight : Option ℕ
deriving DecidableEq

/-- Outcome reported by the hardware (WebCodecs / MediaBunny) attempt:
success with an output handle, a cannot-process report (unsupported or
discarded codec tracks, or output size nearly identical to the input), or
an engine error caught by the wrapper. -/
inductive HwOutcome
  | success (url : ℕ)
  | cannotProcess (reason : String)
  | hwError (msg : String)

/-- Result of one pro transcode call: the returned handle, the list of
software-engine submissions made, and the surfaced fallback reason. -/
structure ProResult where
  result : Option ℕ
  softwareCalls : List EncodeRequest
  fallbackReason : Option String
deriving DecidableEq

/-- The dual-engine orchestration of useTranscoderPro.transcode: on the wasm
engine the request goes straight to the software engine; on webcodecs the
hardware attempt runs first, and when it reports it cannot process the input
(or errors), the identical request is re-submitted to the software engine
once, with the fallback reason surfaced, unless a pending software-engine
error blocks the fallback. -/
def proTranscode (engine : ProEngine) (hwRun : EncodeRequest → HwOutcome)
    (swRun : EncodeRequest → Option ℕ) (wasmError : Bool)
    (req : EncodeRequest) : ProResult :=
  match engine with
  | .wasm => { result := swRun req, softwareCalls := [req],
               fallbackReason := none }
  | .webcodecs =>
    match hwRun req with
    | .success u => { result := some u, softwareCalls := [],
                      fallbackReason := none }
    | .cannotProcess r =>
        if wasmError then
          { result := none, softwareCalls := [], fallbackReason := none }
        else
          { result := swRun req, softwareCalls := [req],
            fallbackReason := some r }
    | .hwError _ =>
        if wasmError then
          { result := none, softwareCalls := [], fallbackReason := none }
        else
          { result := swRun req, softwareCalls := [req],
            fallbackReason := some
              "WebCodecs encountered an error. Using FFmpeg fallback for compatibility." }

/-- A concrete sample request used to exercise the orchestration. -/
def sampleRequest : EncodeRequest where
  fileId := 1
  targetSizeMB := 8
  removeAudio := false
  optimizeAudio := false
  outputResolution := OutputResolution.original
  inputWidth := none
  inputHeight := none

/-- Audio bitrate in bits per second on the MediaBunny path
(transcodeWithMediaBunny): removeAudio wins over optimizeAudio. -/
def mediaBunnyAudioBitrateBps (removeAudio optimizeAudio : Bool) : ℚ :=
  if removeAudio then 0 else if optimizeAudio then 96000 else 128000

/-- FFmpeg audio arguments built by transcode: removeAudio takes the -an
branch regardless of optimizeAudio. -/
def ffmpegAudioArgs (removeAudio optimizeAudio : Bool) : List String :=
  if removeAudio then ["-an"]
  else if optimizeAudio then ["-c:a", "aac", "-b:a", "96k", "-ac", "1"]
  else ["-c:a", "aac", "-b:a", "128k"]

/-! ### Theorems -/

theorem ratFloorEq {q : ℚ} {n : ℤ} (h1 : (n : ℚ) ≤ q)
    (h2 : q < (n : ℚ) + 1) : ⌊q⌋ = n := by
  rw [Int.floor_eq_iff]
  exact ⟨h1, by exact_mod_cast h2⟩

theorem ratCeilEq {q : ℚ} {n : ℤ} (h1 : (n : ℚ) - 1 < q) (h2 : q ≤ (n : ℚ)) :
    ⌈q⌉ = n := by
  rw [Int.ceil_eq_iff]
  exact ⟨by exact_mod_cast h1, h2⟩

theorem ratRoundEq {q : ℚ} {n : ℤ} (h1 : (n : ℚ) ≤ q + 1 / 2)
    (h2 : q + 1 / 2 < (n : ℚ) + 1) : round q = n := by
  rw [round_eq]
  exact ratFloorEq h1 h2

theorem calculateBitrate_of_pos {t d : ℚ} (ht : 0 < t) (hd : 0 < d) (a : ℚ) :
    calculateBitrate t d a =
      some ⌊(adjustedTargetSizeMB t * 8192 / d - a) * (95 / 100)⌋ := by
  unfold calculateBitrate
  rw [if_neg (not_le.mpr hd), if_neg (not_le.mpr ht)]

theorem estimateQuality_score_none (t d : ℚ) (B : ℤ) (v : ℚ)
    (hb : calculateBitrate t d 128 = some B)
    (hv : ((B : ℚ) * 1000) / ((((1920 : ℤ) : ℚ) * ((1080 : ℤ) : ℚ)) * 30)
      = v) :
    (estimateQuality t d none none false false
        OutputResolution.original).map QualityEstimate.score =
      some (max 0 (min 100 (round (qualityScoreOfBpp v)))) := by
  unfold estimateQuality
  rw [show resolveAudioBitrateKbps false false = 128 from rfl, hb, ← hv]
  rfl

/-- C1: for every positive target size and duration and nonnegative audio
bitrate, the bitrate calculator returns exactly the floor, in whole kbps, of
the five-step spec formula stated in bits per second (the code computes in
kbps, so the returned value is the bps formula divided by 1000 and floored);
in particular at targetSizeMB 8, durationSeconds 90 and full 128 kbps audio
it returns 549 kbps, and the spec formula value in bps lies in
[549000, 550000). -/
theorem c1_bitrate_calculator_matches_spec :
    (∀ t d a : ℚ, 0 < t → 0 < d → 0 ≤ a →
      calculateBitrate t d a =
        some ⌊specVideoBitrateBps t d (a * 1000) / 1000⌋) ∧
    calculateBitrate 8 90 128 = some 549 ∧
    (549000 : ℚ) ≤ specVideoBitrateBps 8 90 128000 ∧
    specVideoBitrateBps 8 90 128000 < 550000 := by
  have hadj8 : adjustedTargetSizeMB 8 = 3971 / 512 := by
    unfold adjustedTargetSizeMB bufferMB
    norm_num [min_def, max_def]
  refine ⟨?_, ?_, ?_, ?_⟩
  · intro t d a ht hd _
    rw [calculateBitrate_of_pos ht hd]
    have hd0 : d ≠ 0 := ne_of_gt hd
    have hkey : specVideoBitrateBps t d (a * 1000) / 1000 =
        (adjustedTargetSizeMB t * 8192 / d - a) * (95 / 100) := by
      unfold specVideoBitrateBps
      field_simp
      ring
    rw [hkey]
  · rw [calculateBitrate_of_pos (by norm_num) (by norm_num), hadj8]
    exact congrArg some (ratFloorEq (by norm_num) (by norm_num))
  · unfold specVideoBitrateBps
    rw [hadj8]
    norm_num
  · unfold specVideoBitrateBps
    rw [hadj8]
    norm_num

/-- C1 witness: the general statement applied at a concrete input. -/
theorem c1_bitrate_calculator_matches_spec_witness :
    calculateBitrate 5 60 128 =
      some ⌊specVideoBitrateBps 5 60 (128 * 1000) / 1000⌋ :=
  c1_bitrate_calculator_matches_spec.1 5 60 128 (by norm_num) (by norm_num)
    (by norm_num)

/-- C2 (evaluation at the failing input): at duration 90 s the computed
minimum size is 2.7 MB, but the bitrate calculator at 2.7 MB yields only
90 kbps, below the 100 kbps floor, so the validator reports the computed
minimum size as not valid - the reverse formula omits the safety buffer that
the forward calculator subtracts. -/
theorem c2_minimum_size_fails_validation :
    calculateMinimumSize 90 = 27 / 10 ∧
    calculateBitrate (27 / 10) 90 128 = some 90 ∧
    (validateTargetSize 90 (calculateMinimumSize 90)).map SizeValidation.valid
      = some false := by
  have hmin : calculateMinimumSize 90 = 27 / 10 := by
    unfold calculateMinimumSize
    rw [show (⌈((100 : ℚ) + 128) / (95 / 100) * 90 / 8192 * 10⌉ : ℤ) = 27
      from ratCeilEq (by norm_num) (by norm_num)]
    norm_num
  have hadj : adjustedTargetSizeMB (27 / 10) = 6287 / 2560 := by
    unfold adjustedTargetSizeMB bufferMB
    norm_num [min_def, max_def]
  have hb : calculateBitrate (27 / 10) 90 128 = some 90 := by
    rw [calculateBitrate_of_pos (by norm_num) (by norm_num), hadj]
    exact congrArg some (ratFloorEq (by norm_num) (by norm_num))
  refine ⟨hmin, hb, ?_⟩
  rw [hmin]
  unfold validateTargetSize
  rw [hb]
  rfl

/-- C3 counterexample: at quality score 90, duration 90 s and a 3840 by 2160
input, the inverse resolver assumes a 720p output while the forward estimate
under the original cap keeps full resolution, so the round trip returns
score 16, far outside the claimed tolerance of 2. -/
theorem c3_round_trip_counterexample :
    roundTripScoreAt 90 90 (some 3840) (some 2160) = some 16 ∧
    ¬(|(16 : ℤ) - 90| ≤ 2) := by
  have hsize : calculateTargetSizeForQuality 90 90 (some 3840) (some 2160)
      = 99 / 2 := by
    unfold calculateTargetSizeForQuality
    norm_num [jsTruthy, jsOr]
    rw [show (⌈(37575 / 76 : ℚ)⌉ : ℤ) = 495
      from ratCeilEq (by norm_num) (by norm_num)]
    norm_num
  have hadj : adjustedTargetSizeMB (99 / 2) = 4851 / 100 := by
    unfold adjustedTargetSizeMB bufferMB
    norm_num [min_def, max_def]
  have hb : calculateBitrate (99 / 2) 90 128 = some 4073 := by
    rw [calculateBitrate_of_pos (by norm_num) (by norm_num), hadj]
    exact congrArg some (ratFloorEq (by norm_num) (by norm_num))
  refine ⟨?_, by decide⟩
  unfold roundTripScoreAt
  rw [hsize]
  unfold estimateQuality
  rw [show resolveAudioBitrateKbps false false = 128 from rfl, hb]
  show some (max 0 (min 100 (round (qualityScoreOfBpp
      (((4073 : ℤ) : ℚ) * 1000 /
        ((((3840 : ℤ) : ℚ) * ((2160 : ℤ) : ℚ)) * 30)))))) = some 16
  rw [show (((4073 : ℤ) : ℚ) * 1000 /
      ((((3840 : ℤ) : ℚ) * ((2160 : ℤ) : ℚ)) * 30)) = 4073000 / 248832000
    from by norm_num]
  rw [show qualityScoreOfBpp ((4073000 : ℚ) / 248832000) = 509125 / 31104
    from by unfold qualityScoreOfBpp; norm_num [max_def]]
  rw [show round ((509125 : ℚ) / 31104) = 16
    from ratRoundEq (by norm_num) (by norm_num)]
  decide

/-- C3 amended: the round trip through the inverse and forward quality
mappings reproduces the score within the tolerance of 2 for scores 30, 50,
70 and 90 at duration 90 s when no input dimensions are supplied (so both
directions use the default 1920 by 1080 output). -/
theorem c3_round_trip_amended :
    (roundTripScoreAt 30 90 none none = some 29 ∧ |(29 : ℤ) - 30| ≤ 2) ∧
    (roundTripScoreAt 50 90 none none = some 49 ∧ |(49 : ℤ) - 50| ≤ 2) ∧
    (roundTripScoreAt 70 90 none none = some 69 ∧ |(69 : ℤ) - 70| ≤ 2) ∧
    (roundTripScoreAt 90 90 none none = some 89 ∧ |(89 : ℤ) - 90| ≤ 2) := by
  have h30size : calculateTargetSizeForQuality 30 90 none none = 231 / 10 := by
    unfold calculateTargetSizeForQuality
    norm_num [jsTruthy, jsOr]
    rw [show (⌈(1845 / 8 : ℚ)⌉ : ℤ) = 231
      from ratCeilEq (by norm_num) (by norm_num)]
    norm_num [max_def]
  have h30adj : adjustedTargetSizeMB (231 / 10) = 11319 / 500 := by
    unfold adjustedTargetSizeMB bufferMB
    norm_num [min_def, max_def]
  have h30b : calculateBitrate (231 / 10) 90 128 = some 1835 := by
    rw [calculateBitrate_of_pos (by norm_num) (by norm_num), h30adj]
    exact congrArg some (ratFloorEq (by norm_num) (by norm_num))
  have h30 : roundTripScoreAt 30 90 none none = some 29 := by
    unfold roundTripScoreAt
    rw [h30size,
      estimateQuality_score_none _ _ 1835 (1835000 / 62208000) h30b
        (by norm_num)]
    rw [show qualityScoreOfBpp ((1835000 : ℚ) / 62208000) = 229375 / 7776
      from by unfold qualityScoreOfBpp; norm_num [max_def]]
    rw [show round ((229375 : ℚ) / 7776) = 29
      from ratRoundEq (by norm_num) (by norm_num)]
    decide
  have h50size : calculateTargetSizeForQuality 50 90 none none = 447 / 10 := by
    unfold calculateTargetSizeForQuality
    norm_num [jsTruthy, jsOr]
    rw [show (⌈(16965 / 38 : ℚ)⌉ : ℤ) = 447
      from ratCeilEq (by norm_num) (by norm_num)]
    norm_num [max_def]
  have h50adj : adjustedTargetSizeMB (447 / 10) = 21903 / 500 := by
    unfold adjustedTargetSizeMB bufferMB
    norm_num [min_def, max_def]
  have h50b : calculateBitrate (447 / 10) 90 128 = some 3666 := by
    rw [calculateBitrate_of_pos (by norm_num) (by norm_num), h50adj]
    exact congrArg some (ratFloorEq (by norm_num) (by norm_num))
  have h50 : roundTripScoreAt 50 90 none none = some 49 := by
    unfold roundTripScoreAt
    rw [h50size,
      estimateQuality_score_none _ _ 3666 (3666000 / 62208000) h50b
        (by norm_num)]
    rw [show qualityScoreOfBpp ((3666000 : ℚ) / 62208000) = 95815 / 1944
      from by unfold qualityScoreOfBpp; norm_num]
    rw [show round ((95815 : ℚ) / 1944) = 49
      from ratRoundEq (by norm_num) (by norm_num)]
    decide
  have h70size : calculateTargetSizeForQuality 70 90 none none = 735 / 10 := by
    unfold calculateTargetSizeForQuality
    norm_num [jsTruthy, jsOr]
    rw [show (⌈(13950 / 19 : ℚ)⌉ : ℤ) = 735
      from ratCeilEq (by norm_num) (by norm_num)]
    norm_num [max_def]
  have h70adj : adjustedTargetSizeMB (735 / 10) = 7203 / 100 := by
    unfold adjustedTargetSizeMB bufferMB
    norm_num [min_def, max_def]
  have h70b : calculateBitrate (735 / 10) 90 128 = some 6106 := by
    rw [calculateBitrate_of_pos (by norm_num) (by norm_num), h70adj]
    exact congrArg some (ratFloorEq (by norm_num) (by norm_num))
  have h70 : roundTripScoreAt 70 90 none none = some 69 := by
    unfold roundTripScoreAt
    rw [h70size,
      estimateQuality_score_none _ _ 6106 (6106000 / 62208000) h70b
        (by norm_num)]
    rw [show qualityScoreOfBpp ((6106000 : ℚ) / 62208000) = 537145 / 7776
      from by unfold qualityScoreOfBpp; norm_num]
    rw [show round ((537145 : ℚ) / 7776) = 69
      from ratRoundEq (by norm_num) (by norm_num)]
    decide
  have h90size : calculateTargetSizeForQuality 90 90 none none = 547 / 5 := by
    unfold calculateTargetSizeForQuality
    norm_num [jsTruthy, jsOr]
    rw [show (⌈(166275 / 152 : ℚ)⌉ : ℤ) = 1094
      from ratCeilEq (by norm_num) (by norm_num)]
    norm_num [max_def]
  have h90adj : adjustedTargetSizeMB (547 / 5) = 537 / 5 := by
    unfold adjustedTargetSizeMB bufferMB
    norm_num [min_def, max_def]
  have h90b : calculateBitrate (547 / 5) 90 128 = some 9165 := by
    rw [calculateBitrate_of_pos (by norm_num) (by norm_num), h90adj]
    exact congrArg some (ratFloorEq (by norm_num) (by norm_num))
  have h90 : roundTripScoreAt 90 90 none none = some 89 := by
    unfold roundTripScoreAt
    rw [h90size,
      estimateQuality_score_none _ _ 9165 (9165000 / 62208000) h90b
        (by norm_num)]
    rw [show qualityScoreOfBpp ((9165000 : ℚ) / 62208000) = 115255 / 1296
      from by unfold qualityScoreOfBpp; norm_num]
    rw [show round ((115255 : ℚ) / 1296) = 89
      from ratRoundEq (by norm_num) (by norm_num)]
    decide
  exact ⟨⟨h30, by decide⟩, ⟨h50, by decide⟩, ⟨h70, by decide⟩,
    ⟨h90, by decide⟩⟩

/-- C4 counterexample: at target 1 MB, duration 100 s and 128000 bps audio,
the hardware-path bitrate (after the 0.55 overshoot factor) is far below the
100000 bps floor, yet the hardware calculator silently clamps it up to
exactly 100000 and raises no infeasibility error. -/
theorem c4_hw_path_clamps_counterexample :
    hwVideoBitrateRawBps 1 100 128000 * (55 / 100) < 100000 ∧
    calculateVideoBitrate 1 100 128000 = 100000 := by
  have hadj : adjustedTargetSizeMB 1 = 387 / 512 := by
    unfold adjustedTargetSizeMB bufferMB
    norm_num [min_def, max_def]
  have hraw : hwVideoBitrateRawBps 1 100 128000 * (55 / 100)
      = -172634 / 5 := by
    unfold hwVideoBitrateRawBps
    rw [hadj]
    norm_num
  constructor
  · rw [hraw]
    norm_num
  · unfold calculateVideoBitrate
    rw [hraw, max_eq_left (by norm_num)]
    exact ratFloorEq (by norm_num) (by norm_num)

/-- C4 amended: on the software (FFmpeg) path a computed bitrate below the
100 kbps floor always raises the infeasible error carrying the minimum and
recommended alternative sizes, before any engine work and without clamping;
the hardware (WebCodecs) path instead always clamps its bitrate up to at
least 100000 bps and never surfaces the infeasible condition. -/
theorem c4_infeasible_surfacing_amended :
    (∀ (t d a : ℚ) (b : ℤ), calculateBitrate t d a = some b → b < 100 →
      ffmpegFeasibilityGate t d a =
        FfmpegGate.infeasible (calculateMinimumSize d)
          (getRecommendedTargetSize d)) ∧
    (∀ t d a : ℚ, 100000 ≤ calculateVideoBitrate t d a) := by
  constructor
  · intro t d a b hb hlt
    unfold ffmpegFeasibilityGate
    rw [hb]
    exact if_pos hlt
  · intro t d a
    unfold calculateVideoBitrate
    refine Int.le_floor.mpr ?_
    push_cast
    exact le_max_left _ _

/-- C4 amended witness: both parts at concrete inputs. -/
theorem c4_infeasible_surfacing_amended_witness :
    ffmpegFeasibilityGate 1 100 128 =
      FfmpegGate.infeasible (calculateMinimumSize 100)
        (getRecommendedTargetSize 100) ∧
    100000 ≤ calculateVideoBitrate 2 60 128000 :=
  ⟨c4_infeasible_surfacing_amended.1 1 100 128 (-63)
    (by
      rw [calculateBitrate_of_pos (by norm_num) (by norm_num),
        show adjustedTargetSizeMB 1 = 387 / 512 from by
          unfold adjustedTargetSizeMB bufferMB
          norm_num [min_def, max_def]]
      exact congrArg some (ratFloorEq (by norm_num) (by norm_num)))
    (by norm_num),
   c4_infeasible_surfacing_amended.2 2 60 128000⟩

/-- C7 counterexample: an empty output at full reported progress raises the
generic empty-output error, not the distinct truncated-output error, so the
distinct error is not raised whenever size validation fails at
near-complete progress. -/
theorem c7_truncated_output_counterexample :
    validateOutput 0 1 = OutputValidation.emptyOutput ∧
    OutputValidation.emptyOutput ≠ OutputValidation.truncatedNearComplete := by
  decide

/-- C7 amended: the produced bytes are checked non-empty and against a fixed
1 MB threshold (not one scaled by duration); a non-empty output below the
threshold raises the distinct truncated error exactly when progress reached
0.95 and the generic too-small error otherwise, while an empty output always
raises the generic empty-output error. -/
theorem c7_output_validation_amended :
    (∀ (n : ℕ) (p : ℚ), 0 < n → (n : ℚ) / 1024 / 1024 < 1 → 95 / 100 ≤ p →
      validateOutput n p = OutputValidation.truncatedNearComplete) ∧
    (∀ (n : ℕ) (p : ℚ), 0 < n → (n : ℚ) / 1024 / 1024 < 1 → p < 95 / 100 →
      validateOutput n p = OutputValidation.tooSmall) ∧
    (∀ p : ℚ, validateOutput 0 p = OutputValidation.emptyOutput) ∧
    (∀ (n : ℕ) (p : ℚ), 1048576 ≤ n →
      validateOutput n p = OutputValidation.ok) := by
  refine ⟨?_, ?_, ?_, ?_⟩
  · intro n p hn hsize hp
    unfold validateOutput
    rw [if_neg hn.ne', if_pos hsize, if_pos hp]
  · intro n p hn hsize hp
    unfold validateOutput
    rw [if_neg hn.ne', if_pos hsize, if_neg (not_le.mpr hp)]
  · intro p
    rfl
  · intro n p hn
    unfold validateOutput
    have hn0 : n ≠ 0 := by omega
    have hq : (1 : ℚ) ≤ (n : ℚ) / 1024 / 1024 := by
      rw [div_div]
      rw [le_div_iff₀ (by norm_num)]
      norm_num
      exact_mod_cast hn
    rw [if_neg hn0, if_neg (not_lt.mpr hq)]

/-- C7 amended witness: a 500000-byte output at full progress is classified
as truncated. -/
theorem c7_output_validation_amended_witness :
    validateOutput 500000 1 = OutputValidation.truncatedNearComplete :=
  c7_output_validation_amended.1 500000 1 (by norm_num) (by norm_num)
    (by norm_num)

/-- C8: a firing of the liveness poll with the time since the last progress
update beyond the 3-minute threshold and no completion marker seen fails the
job as stalled, and never fires once a completion marker was seen; after the
exec phase, an abort or OOM signal co-occurring with a seen completion
marker or with progress at least 0.95 classifies the job as completed with a
warning, not as failed. -/
theorem c8_stall_and_abort_classification :
    (∀ tSince : ℚ, STALL_THRESHOLD_MS < tSince →
      livenessPoll tSince false false = some JobTerminal.failedStalled) ∧
    (∀ (tSince : ℚ) (timedOut : Bool),
      livenessPoll tSince true timedOut = none) ∧
    (∀ (oom aborted completed : Bool) (progress : ℚ)
        (frameCount totalFramesEstimate : ℕ),
      (oom = true ∨ aborted = true) →
      (completed = true ∨ 95 / 100 ≤ progress) →
      classifyAfterExec oom aborted
          (encodingLikelyCompleted completed progress frameCount
            totalFramesEstimate) = ExecOutcome.completedWithWarning) := by
  refine ⟨?_, ?_, ?_⟩
  · intro tSince h
    unfold livenessPoll
    rw [if_pos ⟨h, rfl, rfl⟩]
  · intro tSince timedOut
    unfold livenessPoll
    rw [if_neg]
    rintro ⟨-, h, -⟩
    exact Bool.noConfusion h
  · intro oom aborted completed progress fc tfe hsig hcomp
    have hlikely : encodingLikelyCompleted completed progress fc tfe = true := by
      unfold encodingLikelyCompleted
      rcases hcomp with h | h
      · simp [h]
      · simp [h]
    unfold classifyAfterExec
    rw [hlikely]
    rcases hsig with h | h <;> simp [h]

/-- C8 witness: the classification at concrete inputs. -/
theorem c8_stall_and_abort_classification_witness :
    livenessPoll 200000 false false = some JobTerminal.failedStalled ∧
    classifyAfterExec false true
        (encodingLikelyCompleted false (97 / 100) 0 0) =
      ExecOutcome.completedWithWarning :=
  ⟨c8_stall_and_abort_classification.1 200000 (by norm_num [STALL_THRESHOLD_MS]),
   c8_stall_and_abort_classification.2.2 false true false (97 / 100) 0 0
     (Or.inr rfl) (Or.inr (by norm_num))⟩

/-- C9: when the hardware engine reports it cannot process the request (or
errors), the orchestrator re-submits the identical request to the software
engine exactly once and surfaces the fallback reason; on every path the
software engine is invoked at most once per request. -/
theorem c9_dual_engine_fallback :
    (∀ (hwRun : EncodeRequest → HwOutcome) (swRun : EncodeRequest → Option ℕ)
        (req : EncodeRequest) (r : String),
      hwRun req = HwOutcome.cannotProcess r →
      proTranscode ProEngine.webcodecs hwRun swRun false req =
        { result := swRun req, softwareCalls := [req],
          fallbackReason := some r }) ∧
    (∀ (hwRun : EncodeRequest → HwOutcome) (swRun : EncodeRequest → Option ℕ)
        (req : EncodeRequest) (m : String),
      hwRun req = HwOutcome.hwError m →
      (proTranscode ProEngine.webcodecs hwRun swRun false req).softwareCalls
          = [req] ∧
      (proTranscode ProEngine.webcodecs hwRun swRun false
          req).fallbackReason.isSome = true) ∧
    (∀ (engine : ProEngine) (hwRun : EncodeRequest → HwOutcome)
        (swRun : EncodeRequest → Option ℕ) (wasmError : Bool)
        (req : EncodeRequest),
      (proTranscode engine hwRun swRun wasmError req).softwareCalls.length
        ≤ 1) := by
  refine ⟨?_, ?_, ?_⟩
  · intro hwRun swRun req r h
    unfold proTranscode
    rw [h]
    rfl
  · intro hwRun swRun req m h
    unfold proTranscode
    rw [h]
    exact ⟨rfl, rfl⟩
  · intro engine hwRun swRun wasmError req
    cases engine with
    | wasm => simp [proTranscode]
    | webcodecs =>
      cases h : hwRun req with
      | success u => simp [proTranscode, h]
      | cannotProcess r => cases wasmError <;> simp [proTranscode, h]
      | hwError m => cases wasmError <;> simp [proTranscode, h]

/-- C9 witness: a concrete cannot-process request falls back once with the
surfaced reason. -/
theorem c9_dual_engine_fallback_witness :
    proTranscode ProEngine.webcodecs
        (fun _ => HwOutcome.cannotProcess "unsupported codec")
        (fun _ => some 7) false sampleRequest =
      { result := some 7, softwareCalls := [sampleRequest],
        fallbackReason := some "unsupported codec" } :=
  c9_dual_engine_fallback.1 _ _ _ "unsupported codec" rfl

/-- C10: when both removeAudio and optimizeAudio are set, removeAudio wins
at every point of the public interface: the resolved audio bitrate is 0, the
quality estimate equals the one with removeAudio alone, the FFmpeg audio
arguments are the removal arguments, and the MediaBunny audio bitrate and
the hardware video bitrate match the removeAudio-alone call. -/
theorem c10_remove_audio_precedence :
    resolveAudioBitrateKbps true true = 0 ∧
    resolveAudioBitrateKbps true true = resolveAudioBitrateKbps true false ∧
    (∀ (t d : ℚ) (w h : Option ℕ) (res : OutputResolution),
      estimateQuality t d w h true true res =
        estimateQuality t d w h true false res) ∧
    ffmpegAudioArgs true true = ffmpegAudioArgs true false ∧
    mediaBunnyAudioBitrateBps true true = 0 ∧
    mediaBunnyAudioBitrateBps true true =
      mediaBunnyAudioBitrateBps true false ∧
    (∀ t d : ℚ,
      calculateVideoBitrate t d (mediaBunnyAudioBitrateBps true true) =
        calculateVideoBitrate t d (mediaBunnyAudioBitrateBps true false)) :=
  ⟨rfl, rfl, fun _ _ _ _ _ => rfl, rfl, rfl, rfl, fun _ _ => rfl⟩

theorem bufferMB_sub_mono {t₁ t₂ : ℚ} (h : t₁ ≤ t₂) :
    t₁ - bufferMB t₁ ≤ t₂ - bufferMB t₂ := by
  unfold bufferMB
  have hδ : (0 : ℚ) ≤ (t₂ - t₁) * (2 / 100) :=
    mul_nonneg (sub_nonneg.mpr h) (by norm_num)
  have hmax : max (250 / 1024) (t₂ * (2 / 100)) ≤
      max (250 / 1024) (t₁ * (2 / 100)) + (t₂ - t₁) * (2 / 100) := by
    apply max_le
    · exact le_add_of_le_of_nonneg (le_max_left _ _) hδ
    · have he : t₂ * (2 / 100) = t₁ * (2 / 100) + (t₂ - t₁) * (2 / 100) := by
        ring
      rw [he]
      exact add_le_add_right (le_max_right _ _) _
  have hmin : min 2 (max (250 / 1024) (t₂ * (2 / 100))) ≤
      min 2 (max (250 / 1024) (t₁ * (2 / 100))) + (t₂ - t₁) * (2 / 100) := by
    rcases le_total (2 : ℚ) (max (250 / 1024) (t₁ * (2 / 100))) with hc | hc
    · rw [min_eq_left hc]
      exact le_add_of_le_of_nonneg (min_le_left _ _) hδ
    · rw [min_eq_right hc]
      exact le_trans (min_le_right _ _) hmax
  have hfrac : (t₂ - t₁) * (2 / 100) ≤ t₂ - t₁ := by
    have h0 : (0 : ℚ) ≤ t₂ - t₁ := sub_nonneg.mpr h
    linarith
  linarith

theorem adjustedTargetSizeMB_mono {t₁ t₂ : ℚ} (h : t₁ ≤ t₂) :
    adjustedTargetSizeMB t₁ ≤ adjustedTargetSizeMB t₂ :=
  max_le_max le_rfl (bufferMB_sub_mono h)

theorem adjustedTargetSizeMB_ge (t : ℚ) :
    (1 / 10 : ℚ) ≤ adjustedTargetSizeMB t :=
  le_max_left _ _

/-- C5: the bitrate calculator is monotonically increasing in the target
size and monotonically decreasing in the duration, holding the other two
arguments fixed, over all positive targets and durations and nonnegative
audio bitrates (non-strictly: the final floor collapses nearby inputs). -/
theorem c5_bitrate_monotonicity :
    (∀ t₁ t₂ d a : ℚ, 0 < t₁ → t₁ ≤ t₂ → 0 < d → 0 ≤ a →
      ∃ r₁ r₂ : ℤ, calculateBitrate t₁ d a = some r₁ ∧
        calculateBitrate t₂ d a = some r₂ ∧ r₁ ≤ r₂) ∧
    (∀ t d₁ d₂ a : ℚ, 0 < t → 0 < d₁ → d₁ ≤ d₂ → 0 ≤ a →
      ∃ r₁ r₂ : ℤ, calculateBitrate t d₁ a = some r₁ ∧
        calculateBitrate t d₂ a = some r₂ ∧ r₂ ≤ r₁) := by
  constructor
  · intro t₁ t₂ d a ht₁ h hd ha
    refine ⟨_, _, calculateBitrate_of_pos ht₁ hd a,
      calculateBitrate_of_pos (lt_of_lt_of_le ht₁ h) hd a, ?_⟩
    apply Int.floor_le_floor
    have h1 : adjustedTargetSizeMB t₁ * 8192 ≤ adjustedTargetSizeMB t₂ * 8192 :=
      mul_le_mul_of_nonneg_right (adjustedTargetSizeMB_mono h) (by norm_num)
    have h2 : adjustedTargetSizeMB t₁ * 8192 / d ≤
        adjustedTargetSizeMB t₂ * 8192 / d :=
      (div_le_div_iff_of_pos_right hd).mpr h1
    exact mul_le_mul_of_nonneg_right (sub_le_sub_right h2 a) (by norm_num)
  · intro t d₁ d₂ a ht hd₁ h ha
    have hd₂ : 0 < d₂ := lt_of_lt_of_le hd₁ h
    refine ⟨_, _, calculateBitrate_of_pos ht hd₁ a,
      calculateBitrate_of_pos ht hd₂ a, ?_⟩
    apply Int.floor_le_floor
    have hnum : (0 : ℚ) ≤ adjustedTargetSizeMB t * 8192 :=
      mul_nonneg (le_trans (by norm_num) (adjustedTargetSizeMB_ge t))
        (by norm_num)
    have h2 : adjustedTargetSizeMB t * 8192 / d₂ ≤
        adjustedTargetSizeMB t * 8192 / d₁ :=
      div_le_div_of_nonneg_left hnum hd₁ h
    exact mul_le_mul_of_nonneg_right (sub_le_sub_right h2 a) (by norm_num)

/-- C5 witness: both directions at concrete inputs. -/
theorem c5_bitrate_monotonicity_witness :
    (∃ r₁ r₂ : ℤ, calculateBitrate 5 60 128 = some r₁ ∧
      calculateBitrate 10 60 128 = some r₂ ∧ r₁ ≤ r₂) ∧
    (∃ r₁ r₂ : ℤ, calculateBitrate 8 30 128 = some r₁ ∧
      calculateBitrate 8 90 128 = some r₂ ∧ r₂ ≤ r₁) :=
  ⟨c5_bitrate_monotonicity.1 5 10 60 128 (by norm_num) (by norm_num)
      (by norm_num) (by norm_num),
   c5_bitrate_monotonicity.2 8 30 90 128 (by norm_num) (by norm_num)
      (by norm_num) (by norm_num)⟩

theorem roundRatMono {x y : ℚ} (h : x ≤ y) : round x ≤ round y := by
  rw [round_eq, round_eq]
  exact Int.floor_le_floor (by linarith)

theorem roundRat_le_natCast {x : ℚ} {n : ℕ} (h : x ≤ (n : ℚ)) :
    round x ≤ (n : ℤ) := by
  have h2 := roundRatMono h
  rwa [round_natCast] at h2

theorem half_le_of_lt_round {x : ℚ} {n : ℤ} (h : n < round x) :
    (n : ℚ) + 1 / 2 ≤ x := by
  rw [round_eq] at h
  have h2 : n + 1 ≤ ⌊x + 1 / 2⌋ := h
  have h3 := Int.le_floor.mp h2
  push_cast at h3
  linarith

theorem abs_round_sub_le_one (y : ℚ) : |((round y : ℤ) : ℚ) - y| ≤ 1 := by
  have h := abs_sub_round y
  rw [abs_sub_comm] at h
  linarith

theorem scaleToFit_spec {pw ph iW iH : ℕ} (hiW : 0 < iW) (hiH : 0 < iH) :
    (scaleToFit pw ph iW iH).width ≤ (pw : ℤ) ∧
    (scaleToFit pw ph iW iH).height ≤ (ph : ℤ) ∧
    (scaleToFit pw ph iW iH).width ≤ (iW : ℤ) ∧
    (scaleToFit pw ph iW iH).height ≤ (iH : ℤ) ∧
    (|((scaleToFit pw ph iW iH).height : ℚ) -
        ((scaleToFit pw ph iW iH).width : ℚ) * (iH : ℚ) / (iW : ℚ)| ≤ 1 ∨
     |((scaleToFit pw ph iW iH).width : ℚ) -
        ((scaleToFit pw ph iW iH).height : ℚ) * (iW : ℚ) / (iH : ℚ)| ≤ 1) := by
  have hiWQ : (0 : ℚ) < (iW : ℚ) := by exact_mod_cast hiW
  have hiHQ : (0 : ℚ) < (iH : ℚ) := by exact_mod_cast hiH
  have hA_le_iW : ((min pw iW : ℕ) : ℚ) ≤ (iW : ℚ) := by
    exact_mod_cast min_le_right pw iW
  have hA_le_pw : ((min pw iW : ℕ) : ℚ) ≤ (pw : ℚ) := by
    exact_mod_cast min_le_left pw iW
  have hB_le_iH : ((min ph iH : ℕ) : ℚ) ≤ (iH : ℚ) := by
    exact_mod_cast min_le_right ph iH
  have hB_le_ph : ((min ph iH : ℕ) : ℚ) ≤ (ph : ℚ) := by
    exact_mod_cast min_le_left ph iH
  unfold scaleToFit
  rw [show (((min pw iW : ℕ) : ℚ) / ((iW : ℚ) / (iH : ℚ)))
      = ((min pw iW : ℕ) : ℚ) * (iH : ℚ) / (iW : ℚ)
    from div_div_eq_mul_div _ _ _]
  rw [show (((min ph iH : ℕ) : ℚ) * ((iW : ℚ) / (iH : ℚ)))
      = ((min ph iH : ℕ) : ℚ) * (iW : ℚ) / (iH : ℚ)
    from (mul_div_assoc _ _ _).symm]
  have hx_le_iH : ((min pw iW : ℕ) : ℚ) * (iH : ℚ) / (iW : ℚ) ≤ (iH : ℚ) := by
    rw [div_le_iff₀ hiWQ]
    have h1 := mul_le_mul_of_nonneg_right hA_le_iW hiHQ.le
    linarith
  have hy_le_iW : ((min ph iH : ℕ) : ℚ) * (iW : ℚ) / (iH : ℚ) ≤ (iW : ℚ) := by
    rw [div_le_iff₀ hiHQ]
    have h1 := mul_le_mul_of_nonneg_right hB_le_iH hiWQ.le
    linarith
  split_ifs with hland hovL hovP
  · -- landscape, second fitting pass
    dsimp only
    have hhalf := half_le_of_lt_round hovL
    have hph_lt_iH : ph < iH := by
      have h1 : ((ph : ℚ)) + 1 / 2 ≤ (iH : ℚ) := le_trans hhalf hx_le_iH
      have h2 : ((ph : ℚ)) < (iH : ℚ) := by linarith
      exact_mod_cast h2
    have hmin_eq : min ph iH = ph := min_eq_left (le_of_lt hph_lt_iH)
    rw [hmin_eq]
    have hphiH : (ph : ℚ) ≤ (iH : ℚ) := by
      exact_mod_cast le_of_lt hph_lt_iH
    have hkey : (ph : ℚ) * (iW : ℚ) ≤ (pw : ℚ) * (iH : ℚ) := by
      have h1 : ((ph : ℚ) + 1 / 2) * (iW : ℚ)
          ≤ ((min pw iW : ℕ) : ℚ) * (iH : ℚ) := (le_div_iff₀ hiWQ).mp hhalf
      have h2 : ((min pw iW : ℕ) : ℚ) * (iH : ℚ) ≤ (pw : ℚ) * (iH : ℚ) :=
        mul_le_mul_of_nonneg_right hA_le_pw hiHQ.le
      have h3 : ((ph : ℚ) + 1 / 2) * (iW : ℚ)
          = (ph : ℚ) * (iW : ℚ) + (iW : ℚ) / 2 := by ring
      have h4 : (0 : ℚ) ≤ (iW : ℚ) / 2 := by linarith
      linarith
    refine ⟨?_, le_refl _, ?_, by exact_mod_cast le_of_lt hph_lt_iH,
      Or.inr ?_⟩
    · apply roundRat_le_natCast
      rw [div_le_iff₀ hiHQ]
      exact hkey
    · apply roundRat_le_natCast
      rw [div_le_iff₀ hiHQ]
      have h1 := mul_le_mul_of_nonneg_right hphiH hiWQ.le
      linarith
    · push_cast
      exact abs_round_sub_le_one _
  · -- landscape, first pass fits
    dsimp only
    refine ⟨by exact_mod_cast min_le_left pw iW, not_lt.mp hovL,
      by exact_mod_cast min_le_right pw iW,
      roundRat_le_natCast hx_le_iH, Or.inl ?_⟩
    push_cast
    exact abs_round_sub_le_one _
  · -- portrait, second fitting pass
    dsimp only
    have hhalf := half_le_of_lt_round hovP
    have hkey : (pw : ℚ) * (iH : ℚ) ≤ (ph : ℚ) * (iW : ℚ) := by
      have h1 : ((pw : ℚ) + 1 / 2) * (iH : ℚ)
          ≤ ((min ph iH : ℕ) : ℚ) * (iW : ℚ) := (le_div_iff₀ hiHQ).mp hhalf
      have h2 : ((min ph iH : ℕ) : ℚ) * (iW : ℚ) ≤ (ph : ℚ) * (iW : ℚ) :=
        mul_le_mul_of_nonneg_right hB_le_ph hiWQ.le
      have h3 : ((pw : ℚ) + 1 / 2) * (iH : ℚ)
          = (pw : ℚ) * (iH : ℚ) + (iH : ℚ) / 2 := by ring
      have h4 : (0 : ℚ) ≤ (iH : ℚ) / 2 := by linarith
      linarith
    refine ⟨by exact_mod_cast min_le_left pw iW, ?_,
      by exact_mod_cast min_le_right pw iW, ?_, Or.inl ?_⟩
    · apply roundRat_le_natCast
      rw [div_le_iff₀ hiWQ]
      have h1 := mul_le_mul_of_nonneg_right hA_le_pw hiHQ.le
      linarith
    · apply roundRat_le_natCast
      rw [div_le_iff₀ hiWQ]
      have h1 := mul_le_mul_of_nonneg_right hA_le_iW hiHQ.le
      linarith
    · push_cast
      exact abs_round_sub_le_one _
  · -- portrait, first pass fits
    dsimp only
    refine ⟨not_lt.mp hovP, by exact_mod_cast min_le_left ph iH,
      roundRat_le_natCast hy_le_iW,
      by exact_mod_cast min_le_right ph iH, Or.inr ?_⟩
    push_cast
    exact abs_round_sub_le_one _

/-- C6: the resolution planner returns none for the original cap; returns
none when the input already fits the box of the cap on both axes (never
upscales, in particular planDimensions 1080p 640 480 is none); otherwise it
returns dimensions that fit the box of the cap on both axes, do not exceed
the input dimensions, and preserve the input aspect ratio within one pixel
of rounding; in particular planDimensions 720p 3840 2160 is 1280 by 720. -/
theorem c6_resolution_planner :
    (∀ iW iH : ℕ, getTargetDimensions OutputResolution.original iW iH
      = none) ∧
    (∀ (res : OutputResolution) (pw ph iW iH : ℕ),
      presetBox res = some (pw, ph) → iW ≤ pw → iH ≤ ph →
      getTargetDimensions res iW iH = none) ∧
    getTargetDimensions OutputResolution.p1080 640 480 = none ∧
    (∀ (res : OutputResolution) (pw ph iW iH : ℕ),
      presetBox res = some (pw, ph) → 0 < iW → 0 < iH →
      ¬(iW ≤ pw ∧ iH ≤ ph) →
      ∃ d : Dims, getTargetDimensions res iW iH = some d ∧
        d.width ≤ (pw : ℤ) ∧ d.height ≤ (ph : ℤ) ∧
        d.width ≤ (iW : ℤ) ∧ d.height ≤ (iH : ℤ) ∧
        (|(d.height : ℚ) - (d.width : ℚ) * (iH : ℚ) / (iW : ℚ)| ≤ 1 ∨
         |(d.width : ℚ) - (d.height : ℚ) * (iW : ℚ) / (iH : ℚ)| ≤ 1)) ∧
    getTargetDimensions OutputResolution.p720 3840 2160 =
      some { width := 1280, height := 720 } := by
  refine ⟨fun iW iH => rfl, ?_, rfl, ?_, ?_⟩
  · intro res pw ph iW iH hpb h1 h2
    unfold getTargetDimensions
    rw [hpb]
    exact if_pos ⟨h1, h2⟩
  · intro res pw ph iW iH hpb hiW hiH hnofit
    refine ⟨scaleToFit pw ph iW iH, ?_, scaleToFit_spec hiW hiH⟩
    unfold getTargetDimensions
    rw [hpb]
    exact if_neg hnofit
  · show (if 3840 ≤ 1280 ∧ 2160 ≤ 720 then none
      else some (scaleToFit 1280 720 3840 2160)) = some ⟨1280, 720⟩
    rw [if_neg (by decide)]
    unfold scaleToFit
    rw [if_pos (by decide : (2160 : ℕ) ≤ 3840)]
    rw [show (min 1280 3840 : ℕ) = 1280 from by decide,
      show (min 720 2160 : ℕ) = 720 from by decide]
    rw [show round (((1280 : ℕ) : ℚ) / (((3840 : ℕ) : ℚ) / ((2160 : ℕ) : ℚ)))
      = 720 from ratRoundEq (by norm_num) (by norm_num)]
    rw [if_neg (by decide : ¬(((720 : ℕ) : ℤ) < 720))]
    rfl

/-- C6 witness: the general scaling contract applied at the 720p cap with a
4K input. -/
theorem c6_resolution_planner_witness :
    ∃ d : Dims, getTargetDimensions OutputResolution.p720 3840 2160
        = some d ∧
      d.width ≤ ((1280 : ℕ) : ℤ) ∧ d.height ≤ ((720 : ℕ) : ℤ) ∧
      d.width ≤ ((3840 : ℕ) : ℤ) ∧ d.height ≤ ((2160 : ℕ) : ℤ) ∧
      (|(d.height : ℚ) -
          (d.width : ℚ) * ((2160 : ℕ) : ℚ) / ((3840 : ℕ) : ℚ)| ≤ 1 ∨
       |(d.width : ℚ) -
          (d.height : ℚ) * ((3840 : ℕ) : ℚ) / ((2160 : ℕ) : ℚ)| ≤ 1) :=
  c6_resolution_planner.2.2.2.1 OutputResolution.p720 1280 720 3840 2160 rfl
    (by norm_num) (by norm_num) (by decide)
